import Mathlib

/-!
Verification of the process-execution and result-extraction engine of the
artillery-mcp-server repository (src/lib/artillery.ts and the tool shims),
shallowly embedded in Lean 4.  JavaScript dynamic values are modelled by the
`JSValue` type; fallible JavaScript evaluation (property access that can throw
a TypeError) is modelled with `Except String`; the `runCommand` promise
executor is modelled as a state machine folded over the event sequence the
Node event loop delivers.  Definitions come first, then the theorems.
-/

/-- A JavaScript runtime value, as far as the summarizer code observes it:
`undefined`, `null`, booleans, numbers (ℚ — the result files carry decimal
numbers such as 10.5), strings, arrays and objects (field lists). -/
inductive JSValue where
  | vundef : JSValue
  | vnull : JSValue
  | vbool : Bool → JSValue
  | vnum : ℚ → JSValue
  | vstr : String → JSValue
  | varr : List JSValue → JSValue
  | vobj : List (String × JSValue) → JSValue
deriving Repr

namespace JSValue

/-- JavaScript truthiness: `undefined`, `null`, `false`, `0` and `""` are
falsy; every other value (including `{}` and `[]`) is truthy. -/
def truthy : JSValue → Bool
  | vundef => false
  | vnull => false
  | vbool b => b
  | vnum q => q ≠ 0
  | vstr s => s ≠ ""
  | varr _ => true
  | vobj _ => true

/-- The JavaScript `a || b` operator: `a` if truthy, else `b`. -/
def jsOr (a b : JSValue) : JSValue := if a.truthy then a else b

/-- Field lookup on an object's field list (first match wins). -/
def lookupField : List (String × JSValue) → String → Option JSValue
  | [], _ => none
  | (k, v) :: rest, key => if k = key then some v else lookupField rest key

/-- JavaScript property access `v[k]`: throws a TypeError when `v` is `null`
or `undefined`; yields `undefined` for a missing field; primitives box and
yield `undefined` for the fields the summarizer reads. -/
def getProp : JSValue → String → Except String JSValue
  | vundef, k => .error ("TypeError: Cannot read properties of undefined (reading " ++ k ++ ")")
  | vnull, k => .error ("TypeError: Cannot read properties of null (reading " ++ k ++ ")")
  | vobj fields, k => .ok ((lookupField fields k).getD vundef)
  | _, _ => .ok vundef

/-- JavaScript optional chaining `v?.[k]`: `undefined` when `v` is `null` or
`undefined`, otherwise plain property access. -/
def optChain (v : JSValue) (k : String) : Except String JSValue :=
  match v with
  | vundef => .ok vundef
  | vnull => .ok vundef
  | _ => getProp v k

/-- Total field lookup: the value of field `k` when `v` is an object that has
it, `undefined` in every other case (never throws). -/
def getField : JSValue → String → JSValue
  | vobj fields, k => (lookupField fields k).getD vundef
  | _, _ => vundef

end JSValue

open JSValue

/-- The `ArtillerySummary` record built by `parseSummary` in
src/lib/artillery.ts; each field holds whatever JavaScript value the
extraction produced. -/
structure ArtillerySummary where
  requestsTotal : JSValue
  rpsAvg : JSValue
  p50 : JSValue
  p95 : JSValue
  p99 : JSValue
  errors : JSValue
deriving Repr

/-- `ArtilleryWrapper.parseSummary` from src/lib/artillery.ts, applied to the
already-parsed JSON value of the result file:
reads `results.aggregate || {}`, then `counters`/`rates`/`summaries` with
`|| {}` defaults, and extracts the summary fields with `|| 0` / `|| {}`
defaults (`summaries['http.response_time']?.p50 || 0` etc.). -/
def parseSummary (results : JSValue) : Except String ArtillerySummary := do
  let aggregate := jsOr (← getProp results "aggregate") (vobj [])
  let counters := jsOr (← getProp aggregate "counters") (vobj [])
  let rates := jsOr (← getProp aggregate "rates") (vobj [])
  let summaries := jsOr (← getProp aggregate "summaries") (vobj [])
  let responseTime ← getProp summaries "http.response_time"
  let p50 := jsOr (← optChain responseTime "p50") (vnum 0)
  let p95 := jsOr (← optChain responseTime "p95") (vnum 0)
  let p99 := jsOr (← optChain responseTime "p99") (vnum 0)
  return { requestsTotal := jsOr (← getProp counters "http.requests") (vnum 0)
           rpsAvg := jsOr (← getProp rates "http.request_rate") (vnum 0)
           p50 := p50
           p95 := p95
           p99 := p99
           errors := jsOr (← getProp counters "http.errors") (vobj []) }

/-- Modelled from the spec's words (the `ResultSummary` contract): the total,
never-throwing summary extraction in which every absent field degrades to its
default — `0` for the numeric fields, `{}` for the error mapping.  This is
the specification-side reference that `parseSummary` is compared against: it
reads the same `aggregate`/`counters`/`rates`/`summaries` sections, but with
the total lookup `getField`, so no access can throw. -/
def specSummary (results : JSValue) : ArtillerySummary :=
  let aggregate := jsOr (getField results "aggregate") (vobj [])
  let counters := jsOr (getField aggregate "counters") (vobj [])
  let rates := jsOr (getField aggregate "rates") (vobj [])
  let summaries := jsOr (getField aggregate "summaries") (vobj [])
  let responseTime := getField summaries "http.response_time"
  { requestsTotal := jsOr (getField counters "http.requests") (vnum 0)
    rpsAvg := jsOr (getField rates "http.request_rate") (vnum 0)
    p50 := jsOr (getField responseTime "p50") (vnum 0)
    p95 := jsOr (getField responseTime "p95") (vnum 0)
    p99 := jsOr (getField responseTime "p99") (vnum 0)
    errors := jsOr (getField counters "http.errors") (vobj []) }

/-- The result-file content with the newer `metrics.http.*` schema shape used
by the repository's own tests. -/
def newerShapeResults : JSValue :=
  vobj [("metrics", vobj [("http", vobj
    [ ("requests", vobj [("count", vnum 100), ("rate", vnum (21/2))])
    , ("response_time", vobj [("p50", vnum 150), ("p95", vnum 300), ("p99", vnum 500)])
    , ("errors", vobj [("ETIMEDOUT", vnum 5)]) ])])]

/-- Numeric value of a digit string, most significant first (the behaviour of
`parseInt` on a string of decimal digits). -/
def natOfDigits (ds : List Char) : Nat :=
  ds.foldl (fun n c => n * 10 + (c.toNat - '0'.toNat)) 0

/-- Seconds per duration unit (`s`, `m`, `h`, `d`); any other character maps
to 1 (unreachable in `parseDuration`, mirroring the `default` case). -/
def unitMult (u : Char) : Nat :=
  if u = 's' then 1
  else if u = 'm' then 60
  else if u = 'h' then 3600
  else if u = 'd' then 86400
  else 1

/-- The regular-expression match of the duration pattern (one or more digits
followed by an optional unit letter among s, m, h, d, anchored on both
sides) on a character list: `some (digits, unit)` on a match, `none`
otherwise (the unit defaults to `'s'`). -/
def matchDuration (cs : List Char) : Option (List Char × Char) :=
  match cs.reverse with
  | [] => none
  | c :: rest =>
    if c = 's' || c = 'm' || c = 'h' || c = 'd' then
      if !rest.isEmpty && rest.reverse.all Char.isDigit then
        some (rest.reverse, c)
      else none
    else if cs.all Char.isDigit then some (cs, 's') else none

/-- `ArtilleryWrapper.parseDuration` from src/lib/artillery.ts: match the
string against the duration pattern, return `1` on no match, otherwise the
integer value scaled by the unit. -/
def parseDuration (duration : String) : Nat :=
  match matchDuration duration.data with
  | none => 1
  | some (digits, unit) => natOfDigits digits * unitMult unit

/-- Split a character list on `/`. -/
def splitSlash (cs : List Char) : List (List Char) :=
  cs.foldr (fun c groups =>
    if c = '/' then [] :: groups
    else match groups with
      | [] => [[c]]
      | g :: gs => (c :: g) :: gs) [[]]

/-- Split a path string on `/` and drop empty components (as Node's posix
path normalization does before processing `.`/`..`). -/
def splitPath (s : String) : List String :=
  ((splitSlash s.data).map String.mk).filter (fun c => c ≠ "")

/-- Process `.` and `..` components of an absolute path left to right; `..`
at the root is dropped (posix `path.resolve` semantics). -/
def normalizeComponents (comps : List String) : List String :=
  comps.foldl (fun acc comp =>
    if comp = "." then acc
    else if comp = ".." then acc.dropLast
    else acc ++ [comp]) []

/-- Render an absolute path from its normalized components. -/
def joinAbs (comps : List String) : String :=
  "/" ++ String.intercalate "/" comps

/-- Node `path.resolve(p)` for an absolute `p`: normalization. -/
def resolveOne (p : String) : String :=
  joinAbs (normalizeComponents (splitPath p))

/-- Node `path.resolve(base, p)` with `base` absolute: `p` wins if absolute,
otherwise `p` is appended to `base` and the whole is normalized. -/
def resolvePath (base p : String) : String :=
  if p.data.head? = some '/' then resolveOne p
  else joinAbs (normalizeComponents (splitPath base ++ splitPath p))

/-- JavaScript `String.prototype.startsWith`: character-prefix test. -/
def strStartsWith (s pre : String) : Bool :=
  pre.data.isPrefixOf s.data

/-- `p` is equal to, or nested under, the resolved work directory `wd` — the
relation the specification's path-escape sentence speaks about. -/
def isNestedUnder (wd p : String) : Bool :=
  p == resolveOne wd || strStartsWith p (resolveOne wd ++ "/")

/-- The two failure modes of `sanitizePath`. -/
inductive PathError where
  | escape (p : String)
  | notFound (p : String)
deriving Repr, DecidableEq

/-- `ArtilleryWrapper.sanitizePath` from src/lib/artillery.ts: resolve
`filePath` against `cwd || config.workDir`, reject (before any filesystem
access) when the resolved path does not start with the resolved work
directory string, then reject when the file does not exist.  The filesystem
is modelled by the existence predicate `fsExists`. -/
def sanitizePath (fsExists : String → Bool) (configWorkDir filePath : String)
    (cwd : Option String) : Except PathError String :=
  let workDir := cwd.getD configWorkDir
  let resolvedPath := resolvePath workDir filePath
  if strStartsWith resolvedPath (resolveOne workDir) then
    if fsExists resolvedPath then .ok resolvedPath
    else .error (.notFound filePath)
  else .error (.escape filePath)

/-- An event delivered to the `runCommand` promise executor: a stdout or
stderr data chunk, the timeout timer firing, the child's `close` event (with
its nullable exit code), or the child's `error` event. -/
inductive RunEvent where
  | outData (chunk : String)
  | errData (chunk : String)
  | timeoutFires
  | closeEvt (code : Option Int)
  | errorEvt (message : String)
deriving Repr, DecidableEq

/-- Whether an event is a stream-data event. -/
def RunEvent.isData : RunEvent → Bool
  | .outData _ => true
  | .errData _ => true
  | _ => false

/-- The value `runCommand` resolves with on normal exit. -/
structure ProcOutcome where
  exitCode : Int
  stdout : String
  stderr : String
deriving Repr, DecidableEq

/-- The errors `runCommand` rejects with. -/
inductive RunError where
  | timedOut (ms : Nat)
  | spawnError (message : String)
deriving Repr, DecidableEq

/-- The mutable locals of the `runCommand` promise executor: the `killed`
flag, whether the timeout timer is still pending (`clearTimeout` has not run
and the timer has not fired), the promise settlement (first settlement wins),
the signals sent to the child, and the two capped output buffers. -/
structure RunState where
  killed : Bool
  timerActive : Bool
  settled : Option (Except RunError ProcOutcome)
  killSignals : List String
  stdout : String
  stderr : String
deriving Repr

/-- Initial executor state right after `spawn`. -/
def initRunState : RunState :=
  { killed := false, timerActive := true, settled := none, killSignals := []
    stdout := "", stderr := "" }

/-- Settle the promise: a no-op when it is already settled. -/
def RunState.settle (st : RunState) (r : Except RunError ProcOutcome) : RunState :=
  { st with settled := some (st.settled.getD r) }

/-- JavaScript `code || 0` on the nullable exit code of the `close` event. -/
def exitCodeOrZero (code : Option Int) : Int := code.getD 0

/-- One event-handler step of `runCommand` from src/lib/artillery.ts:
data handlers append the whole chunk when the buffer is still below
`maxOutputMb * 1024 * 1024`; the timeout handler sets `killed`, sends
SIGKILL and rejects with the timeout error; the `close` handler clears the
timer and resolves (with `code || 0`) unless `killed`; the `error` handler
clears the timer and rejects. -/
def runStep (maxOutputMb timeoutMs : Nat) (st : RunState) : RunEvent → RunState
  | .outData chunk =>
    if st.stdout.length < maxOutputMb * 1024 * 1024 then
      { st with stdout := st.stdout ++ chunk }
    else st
  | .errData chunk =>
    if st.stderr.length < maxOutputMb * 1024 * 1024 then
      { st with stderr := st.stderr ++ chunk }
    else st
  | .timeoutFires =>
    if st.timerActive then
      RunState.settle
        { st with killed := true, timerActive := false
                  killSignals := st.killSignals ++ ["SIGKILL"] }
        (.error (.timedOut timeoutMs))
    else st
  | .closeEvt code =>
    if st.killed then { st with timerActive := false }
    else RunState.settle { st with timerActive := false }
      (.ok ⟨exitCodeOrZero code, st.stdout, st.stderr⟩)
  | .errorEvt msg =>
    RunState.settle { st with timerActive := false } (.error (.spawnError msg))

/-- `ArtilleryWrapper.runCommand`: the promise executor viewed as a fold of
its event handlers over the sequence of events the Node event loop delivers. -/
def runCommand (maxOutputMb timeoutMs : Nat) (events : List RunEvent) : RunState :=
  events.foldl (runStep maxOutputMb timeoutMs) initRunState

/-- The one-megabyte-plus-one-character stdout chunk used to exhibit the cap
overshoot. -/
def bigChunk : String := String.mk (List.replicate 1048577 'a')

/-- The `ArtilleryResult` record the run tools return (src/types.ts):
exit code, elapsed time, log tail and the optional summary. -/
structure ArtilleryResult where
  exitCode : Int
  elapsedMs : Nat
  logsTail : String
  summary : Option ArtillerySummary

/-- The uniform tool outcome shape `{status, tool, data | error}`. -/
inductive ToolOutput (α : Type) where
  | ok (tool : String) (data : α)
  | error (tool code message : String)

namespace RunTestFromFileTool

/-- `RunTestFromFileTool.call` (run-from-file tool shim), abstracted over the
Facade: `runner` is the outcome `artillery.runTestFromFile` would produce;
the returned flag records whether the Runner was invoked.  With
`validateOnly` the call returns the synthetic zero-cost success before the
Facade is touched. -/
def call (validateOnly : Bool) (runner : Except String ArtilleryResult) :
    ToolOutput ArtilleryResult × Bool :=
  if validateOnly then
    (.ok "run_test_from_file"
      ⟨0, 0, "Configuration validated successfully (dry-run)", none⟩, false)
  else
    match runner with
    | .ok r => (.ok "run_test_from_file" r, true)
    | .error e => (.error "run_test_from_file" "EXECUTION_ERROR" e, true)

end RunTestFromFileTool

namespace RunTestInlineTool

/-- `RunTestInlineTool.call` (run-inline tool shim), abstracted the same
way over `artillery.runTestInline`. -/
def call (validateOnly : Bool) (runner : Except String ArtilleryResult) :
    ToolOutput ArtilleryResult × Bool :=
  if validateOnly then
    (.ok "run_test_inline"
      ⟨0, 0, "Inline configuration validated successfully (dry-run)", none⟩, false)
  else
    match runner with
    | .ok r => (.ok "run_test_inline" r, true)
    | .error e => (.error "run_test_inline" "EXECUTION_ERROR" e, true)

end RunTestInlineTool

/-- A filesystem/subprocess effect performed by `runTestInline`. -/
inductive FSEffect where
  | mkdirTemp (dir : String)
  | writeTemp (file content : String)
  | runFile (file : String)
  | unlinkTemp (file : String)
deriving Repr, DecidableEq

/-- The temporary config file name `<workDir>/temp/config-<epochMillis>.yml`. -/
def tempFileName (workDir : String) (now : Nat) : String :=
  workDir ++ "/temp/config-" ++ toString now ++ ".yml"

/-- `ArtilleryWrapper.runTestInline` from src/lib/artillery.ts, viewed as an
effect trace: make the temp directory, write the temp file, and inside
`try`/`finally` delegate to `runTestFromFile`, always attempting `unlink` of
the temp file before returning (unlink errors are swallowed).  The outcomes
of `mkdir`, `writeFile` and the delegated run are parameters. -/
def runTestInline (workDir configText : String) (now : Nat)
    (mkdirOutcome writeOutcome : Except String Unit)
    (runOutcome : Except String ArtilleryResult) :
    Except String ArtilleryResult × List FSEffect :=
  let tempDir := workDir ++ "/temp"
  let tempFile := tempFileName workDir now
  match mkdirOutcome with
  | .error e => (.error e, [.mkdirTemp tempDir])
  | .ok _ =>
    match writeOutcome with
    | .error e =>
      (.error e, [.mkdirTemp tempDir, .writeTemp tempFile configText,
        .unlinkTemp tempFile])
    | .ok _ =>
      match runOutcome with
      | .ok r =>
        (.ok r, [.mkdirTemp tempDir, .writeTemp tempFile configText,
          .runFile tempFile, .unlinkTemp tempFile])
      | .error e =>
        (.error e, [.mkdirTemp tempDir, .writeTemp tempFile configText,
          .runFile tempFile, .unlinkTemp tempFile])

/-- Node `path.isAbsolute` on posix: the path begins with `/`. -/
def isAbsolutePath (p : String) : Bool := p.data.head? = some '/'

/-- One entry of the tool's scenario breakdown. -/
structure ScenarioSummary where
  name : JSValue
  count : JSValue
  successRate : JSValue
  avgLatency : JSValue

/-- The `scenarios.map(...)` body in src/tools/parse-results.ts: per-element
field extraction with `|| 'Unknown'` / `|| 0` defaults. -/
def extractScenario (sc : JSValue) : Except String ScenarioSummary := do
  return { name := jsOr (← getProp sc "name") (vstr "Unknown")
           count := jsOr (← getProp sc "count") (vnum 0)
           successRate := jsOr (← getProp sc "successRate") (vnum 0)
           avgLatency := jsOr (← getProp sc "avgLatency") (vnum 0) }

/-- `(results.scenarios || []).map(...)`: mapping over an array value;
calling `.map` on a truthy non-array throws a TypeError. -/
def extractScenarios (v : JSValue) : Except String (List ScenarioSummary) :=
  match v with
  | varr xs => xs.mapM extractScenario
  | _ => .error "TypeError: scenarios.map is not a function"

/-- The `ParsedResults` record of src/tools/parse-results.ts. -/
structure ParsedResults where
  summary : ArtillerySummary
  scenarios : List ScenarioSummary
  timestamp : JSValue
  duration : JSValue
  totalRequests : JSValue

/-- The body of `ParseResultsTool.call` after the raw parse: the summary
extraction (character-identical in the source to `parseSummary`), the
scenario breakdown and the metadata (`new Date().toISOString()` is the
`nowIso` parameter). -/
def toolExtract (results : JSValue) (nowIso : String) :
    Except String ParsedResults := do
  let summary ← parseSummary results
  let scenariosRaw := jsOr (← getProp results "scenarios") (varr [])
  let breakdown ← extractScenarios scenariosRaw
  let timestamp := jsOr (← getProp results "timestamp") (vstr nowIso)
  let duration := jsOr (← getProp results "duration") (vstr "Unknown")
  return ⟨summary, breakdown, timestamp, duration, summary.requestsTotal⟩

namespace ParseResultsTool

/-- `ParseResultsTool.call`: validates that `jsonPath` is absolute before any
filesystem access (a failing check throws, caught into the PARSE_ERROR
shape), then parses (`readParse` is the outcome `artillery.parseResults`
would produce) and extracts; any thrown error is reported as a structured
`PARSE_ERROR`.  The flag records whether the file read was reached. -/
def call (jsonPath : String) (readParse : Except String JSValue)
    (nowIso : String) : ToolOutput ParsedResults × Bool :=
  if isAbsolutePath jsonPath then
    match readParse with
    | .error e => (.error "parse_results" "PARSE_ERROR" e, true)
    | .ok results =>
      match toolExtract results nowIso with
      | .ok pr => (.ok "parse_results" pr, true)
      | .error e => (.error "parse_results" "PARSE_ERROR" e, true)
  else (.error "parse_results" "PARSE_ERROR" "Path must be absolute", false)

end ParseResultsTool

example : parseDuration "30s" = 30 := by decide
example : parseDuration "45" = 45 := by decide
example : parseDuration "" = 1 := by decide
example : parseDuration "5m6" = 1 := by decide
example : resolvePath "/work" "a/../b" = "/work/b" := by rfl
example : resolvePath "/work" "/etc/passwd" = "/etc/passwd" := by rfl
example : resolvePath "/work" "../../etc/passwd" = "/etc/passwd" := by rfl
example : sanitizePath (fun _ => true) "/work" "../../etc/passwd" none
  = .error (.escape "../../etc/passwd") := by rfl
example : sanitizePath (fun _ => false) "/work" "a.yml" none
  = .error (.notFound "a.yml") := by rfl
example : sanitizePath (fun _ => true) "/base" "x.yml" (some "/other")
  = .ok "/other/x.yml" := by rfl
example : (runCommand 1 1000 [.outData "hi", .closeEvt (some 0)]).settled
  = some (.ok ⟨0, "hi", ""⟩) := by rfl
example : (runCommand 1 1000 [.timeoutFires, .closeEvt (some 0)]).settled
  = some (.error (.timedOut 1000)) := by rfl

/-- Property access with a given key succeeds on any value other than `null`
and `undefined`, and returns exactly the total lookup `getField`. -/
theorem getProp_eq_getField (v : JSValue) (h1 : v ≠ vnull) (h2 : v ≠ vundef)
    (k : String) : getProp v k = .ok (getField v k) := by
  cases v <;> simp_all [getProp, getField]

/-- A `|| {}`-defaulted value is never `null` or `undefined`. -/
theorem jsOr_vobj_ne (x : JSValue) (fs : List (String × JSValue)) :
    jsOr x (vobj fs) ≠ vnull ∧ jsOr x (vobj fs) ≠ vundef := by
  unfold jsOr
  split
  · cases x <;> simp_all [truthy]
  · simp

/-- Optional chaining never throws, and returns exactly the total lookup
`getField`. -/
theorem optChain_eq_getField (v : JSValue) (k : String) :
    optChain v k = .ok (getField v k) := by
  cases v <;> simp [optChain, getProp, getField]

/-- C4: `parseSummary` on the newer `metrics.http.*` schema shape.  The code
only reads the older `aggregate.counters/rates/summaries` layout, so the
newer shape yields the all-zero default summary, not the asserted values
(the repository's own tests expect `requestsTotal = 100` here). -/
theorem parseSummary_newerShape_returns_zeros :
    parseSummary newerShapeResults =
      .ok ⟨vnum 0, vnum 0, vnum 0, vnum 0, vnum 0, vobj []⟩ ∧
    vnum 0 ≠ vnum 100 := by
  refine ⟨by rfl, ?_⟩
  simp

/-- C5 counterexample: the file content `null` is syntactically valid JSON,
yet `parseSummary` throws a TypeError on it (property access on `null`). -/
theorem parseSummary_null_throws :
    ∃ e, parseSummary vnull = .error e := ⟨_, by rfl⟩

/-- On every parsed JSON value other than top-level `null` (and `undefined`,
which `JSON.parse` cannot produce), `parseSummary` succeeds and returns
exactly the total defaults-applied extraction `specSummary`. -/
theorem parseSummary_eq_spec (v : JSValue) (h1 : v ≠ vnull)
    (h2 : v ≠ vundef) : parseSummary v = .ok (specSummary v) := by
  have ha := getProp_eq_getField v h1 h2 "aggregate"
  obtain ⟨hn, hu⟩ := jsOr_vobj_ne (getField v "aggregate") []
  have hc := getProp_eq_getField _ hn hu "counters"
  have hr := getProp_eq_getField _ hn hu "rates"
  have hs := getProp_eq_getField _ hn hu "summaries"
  obtain ⟨hn2, hu2⟩ := jsOr_vobj_ne
    (getField (jsOr (getField v "aggregate") (vobj [])) "summaries") []
  have hrt := getProp_eq_getField _ hn2 hu2 "http.response_time"
  obtain ⟨hn3, hu3⟩ := jsOr_vobj_ne
    (getField (jsOr (getField v "aggregate") (vobj [])) "counters") []
  have hreq := getProp_eq_getField _ hn3 hu3 "http.requests"
  have herr2 := getProp_eq_getField _ hn3 hu3 "http.errors"
  obtain ⟨hn4, hu4⟩ := jsOr_vobj_ne
    (getField (jsOr (getField v "aggregate") (vobj [])) "rates") []
  have hrra := getProp_eq_getField _ hn4 hu4 "http.request_rate"
  simp [parseSummary, specSummary, ha, hc, hr, hs, hrt, hreq, hrra, herr2,
    optChain_eq_getField, Bind.bind, Except.bind, Pure.pure, Except.pure]

/-- C5 (amended): on every parsed JSON value other than top-level `null`
(and `undefined`, which `JSON.parse` cannot produce), `parseSummary` returns,
without throwing, exactly the total extraction in which every absent field
defaults to `0` or the empty mapping; in particular an entirely empty file
yields the all-default summary, and a result file whose counters section
lacks the `http.errors` field entirely yields `errors = {}`. -/
theorem parseSummary_defaults (v : JSValue) (h1 : v ≠ vnull)
    (h2 : v ≠ vundef) :
    parseSummary v = .ok (specSummary v) ∧
    parseSummary (vobj []) =
      .ok ⟨vnum 0, vnum 0, vnum 0, vnum 0, vnum 0, vobj []⟩ ∧
    (∀ fs : List (String × JSValue), lookupField fs "http.errors" = none →
      ∃ s, parseSummary (vobj [("aggregate", vobj [("counters", vobj fs)])])
          = .ok s ∧ s.errors = vobj []) := by
  refine ⟨parseSummary_eq_spec v h1 h2, by rfl, fun fs hfs => ?_⟩
  refine ⟨specSummary (vobj [("aggregate", vobj [("counters", vobj fs)])]),
    parseSummary_eq_spec _ (by simp) (by simp), ?_⟩
  simp [specSummary, getField, jsOr, truthy, lookupField, hfs]

/-- A decimal digit is not one of the four duration unit letters. -/
theorem duration_unit_not_digit {c : Char} (h : c.isDigit = true) :
    (decide (c = 's') || decide (c = 'm') || decide (c = 'h') || decide (c = 'd')) = false := by
  simp only [Bool.or_eq_false_iff, decide_eq_false_iff_not]
  refine ⟨⟨⟨?_, ?_⟩, ?_⟩, ?_⟩ <;> rintro rfl <;> exact absurd h (by decide)

/-- A nonempty all-digit string matches the duration pattern with the unit
defaulted to `'s'`. -/
theorem matchDuration_digits (ds : List Char) (hne : ds ≠ [])
    (hd : ds.all Char.isDigit = true) : matchDuration ds = some (ds, 's') := by
  match hrev : ds.reverse with
  | [] =>
    exact absurd (by simpa using hrev) hne
  | c :: rest =>
    have hc : c ∈ ds := by
      have : c ∈ ds.reverse := by rw [hrev]; exact List.mem_cons_self _ _
      simpa using this
    have hcd : c.isDigit = true := by
      rw [List.all_eq_true] at hd
      exact hd c hc
    unfold matchDuration
    rw [hrev]
    simp [duration_unit_not_digit hcd, hd]

/-- Digits followed by a unit letter match the duration pattern. -/
theorem matchDuration_concat (ds : List Char) (u : Char) (hne : ds ≠ [])
    (hd : ds.all Char.isDigit = true)
    (hu : u = 's' ∨ u = 'm' ∨ u = 'h' ∨ u = 'd') :
    matchDuration (ds ++ [u]) = some (ds, u) := by
  have hcond : (decide (u = 's') || decide (u = 'm') || decide (u = 'h')
      || decide (u = 'd')) = true := by
    rcases hu with rfl | rfl | rfl | rfl <;> decide
  have hrevne : ds.reverse ≠ [] := by simpa using hne
  unfold matchDuration
  rw [List.reverse_append]
  simp [hcond, hd, List.isEmpty_eq_true, hrevne]

/-- C9: for every `<integer><unit>` string with unit in {s,m,h,d} the
Duration Parser returns the integer scaled by 1/60/3600/86400; with the unit
omitted it returns the integer itself (seconds); the cited examples hold; and
every non-matching string returns the safe default 1. -/
theorem parseDuration_spec (ds : List Char) (u : Char) (hne : ds ≠ [])
    (hd : ds.all Char.isDigit = true)
    (hu : u = 's' ∨ u = 'm' ∨ u = 'h' ∨ u = 'd') :
    parseDuration (String.mk (ds ++ [u])) = natOfDigits ds * unitMult u ∧
    parseDuration (String.mk ds) = natOfDigits ds ∧
    (∀ s : String, matchDuration s.data = none → parseDuration s = 1) ∧
    parseDuration "30s" = 30 ∧ parseDuration "2m" = 120 ∧
    parseDuration "1h" = 3600 ∧ parseDuration "1d" = 86400 ∧
    parseDuration "abc" = 1 := by
  refine ⟨?_, ?_, ?_, by decide, by decide, by decide, by decide, by decide⟩
  · show parseDuration ⟨ds ++ [u]⟩ = _
    unfold parseDuration
    rw [show (String.mk (ds ++ [u])).data = ds ++ [u] from rfl,
      matchDuration_concat ds u hne hd hu]
  · unfold parseDuration
    rw [show (String.mk ds).data = ds from rfl, matchDuration_digits ds hne hd]
    simp [unitMult]
  · intro s hs
    unfold parseDuration
    rw [hs]

/-- Nested-under implies the string-prefix test that the code performs. -/
theorem strStartsWith_of_isNestedUnder (wd p : String)
    (h : isNestedUnder wd p = true) :
    strStartsWith p (resolveOne wd) = true := by
  unfold isNestedUnder at h
  rcases Bool.or_eq_true_iff.mp h with h1 | h2
  · have : p = resolveOne wd := eq_of_beq h1
    subst this
    simp [strStartsWith, List.isPrefixOf_iff_prefix]
  · unfold strStartsWith at h2 ⊢
    rw [ List.isPrefixOf_iff_prefix] at h2 ⊢
    refine List.IsPrefix.trans ?_ h2
    exact ⟨"/".data, by simp [String.data_append]⟩

/-- C1 counterexample: with work directory `/work`, the path `../work2/f`
resolves to `/work2/f`, which is neither equal to nor nested under `/work`,
yet `sanitizePath` accepts it (the containment test is a raw string-prefix
check), returning the outside path when the file exists. -/
theorem sanitizePath_sibling_escape :
    resolvePath "/work" "../work2/f" = "/work2/f" ∧
    isNestedUnder "/work" "/work2/f" = false ∧
    sanitizePath (fun _ => true) "/work" "../work2/f" none = .ok "/work2/f" := by
  refine ⟨by rfl, by rfl, by rfl⟩

/-- C1 (amended): `sanitizePath` resolves `p` against `cwd` when given, else
the configured work directory; the escape check is the string-prefix test
of the resolved path against the resolved work directory: when the prefix
test fails the call fails with the path-escape error regardless of
existence; when it succeeds the existence check decides between
`resolve(workDir, p)` and the file-not-found error.  In particular every
path resolving equal to or nested under the work directory that exists is
returned as `resolve(workDir, p)`. -/
theorem sanitizePath_spec (fsExists : String → Bool) (configWorkDir p : String)
    (cwd : Option String) :
    (strStartsWith (resolvePath (cwd.getD configWorkDir) p)
        (resolveOne (cwd.getD configWorkDir)) = false →
      sanitizePath fsExists configWorkDir p cwd = .error (.escape p)) ∧
    (strStartsWith (resolvePath (cwd.getD configWorkDir) p)
        (resolveOne (cwd.getD configWorkDir)) = true →
      fsExists (resolvePath (cwd.getD configWorkDir) p) = false →
      sanitizePath fsExists configWorkDir p cwd = .error (.notFound p)) ∧
    (isNestedUnder (cwd.getD configWorkDir)
        (resolvePath (cwd.getD configWorkDir) p) = true →
      fsExists (resolvePath (cwd.getD configWorkDir) p) = true →
      sanitizePath fsExists configWorkDir p cwd
        = .ok (resolvePath (cwd.getD configWorkDir) p)) := by
  refine ⟨fun h => ?_, fun h he => ?_, fun h he => ?_⟩
  · simp [sanitizePath, h]
  · simp [sanitizePath, h, he]
  · simp [sanitizePath, strStartsWith_of_isNestedUnder _ _ h, he]

/-- A settled promise stays settled with the same value, whatever events
arrive later. -/
theorem settled_persists (mb tms : Nat) (evs : List RunEvent) (st : RunState)
    (x : Except RunError ProcOutcome) (h : st.settled = some x) :
    (evs.foldl (runStep mb tms) st).settled = some x := by
  induction evs generalizing st with
  | nil => exact h
  | cons ev rest ih =>
    refine ih _ ?_
    cases ev with
    | outData chunk => simp only [runStep]; split <;> simp [h]
    | errData chunk => simp only [runStep]; split <;> simp [h]
    | timeoutFires => simp only [runStep]; split <;> simp [RunState.settle, h]
    | closeEvt code => simp only [runStep]; split <;> simp [RunState.settle, h]
    | errorEvt msg => simp [runStep, RunState.settle, h]

/-- Kill signals already sent are never retracted. -/
theorem killSignals_persist (mb tms : Nat) (evs : List RunEvent) (st : RunState)
    (s : String) (h : s ∈ st.killSignals) :
    s ∈ (evs.foldl (runStep mb tms) st).killSignals := by
  induction evs generalizing st with
  | nil => exact h
  | cons ev rest ih =>
    refine ih _ ?_
    cases ev with
    | outData chunk => simp only [runStep]; split <;> simp [h]
    | errData chunk => simp only [runStep]; split <;> simp [h]
    | timeoutFires => simp only [runStep]; split <;> simp [RunState.settle, h]
    | closeEvt code => simp only [runStep]; split <;> simp [RunState.settle, h]
    | errorEvt msg => simp [runStep, RunState.settle, h]

/-- Stream-data events only touch the output buffers. -/
theorem foldl_data_events (mb tms : Nat) (evs : List RunEvent) (st : RunState)
    (h : ∀ e ∈ evs, e.isData = true) :
    ∃ o e, evs.foldl (runStep mb tms) st = { st with stdout := o, stderr := e } := by
  induction evs generalizing st with
  | nil => exact ⟨st.stdout, st.stderr, rfl⟩
  | cons ev rest ih =>
    have hev := h ev (List.mem_cons_self _ _)
    have hrest : ∀ e ∈ rest, e.isData = true := fun e he => h e (List.mem_cons_of_mem _ he)
    cases ev with
    | outData chunk =>
      simp only [List.foldl_cons, runStep]
      split
      · obtain ⟨o, e, hoe⟩ := ih { st with stdout := st.stdout ++ chunk } hrest
        exact ⟨o, e, hoe⟩
      · exact ih st hrest
    | errData chunk =>
      simp only [List.foldl_cons, runStep]
      split
      · obtain ⟨o, e, hoe⟩ := ih { st with stderr := st.stderr ++ chunk } hrest
        exact ⟨o, e, hoe⟩
      · exact ih st hrest
    | timeoutFires => simp [RunEvent.isData] at hev
    | closeEvt code => simp [RunEvent.isData] at hev
    | errorEvt msg => simp [RunEvent.isData] at hev

/-- Capping invariant: when every stdout chunk in the trace is at most `L`
characters long, the stdout buffer never grows past
`maxOutputMb * 1024 * 1024 + L` (each whole chunk is appended only while the
buffer is still strictly below the byte cap); likewise for stderr. -/
theorem foldl_output_bound (mb tms L : Nat) (evs : List RunEvent) (st : RunState)
    (hout : ∀ s, RunEvent.outData s ∈ evs → s.length ≤ L)
    (herr : ∀ s, RunEvent.errData s ∈ evs → s.length ≤ L)
    (h1 : st.stdout.length ≤ mb * 1024 * 1024 + L)
    (h2 : st.stderr.length ≤ mb * 1024 * 1024 + L) :
    (evs.foldl (runStep mb tms) st).stdout.length ≤ mb * 1024 * 1024 + L ∧
    (evs.foldl (runStep mb tms) st).stderr.length ≤ mb * 1024 * 1024 + L := by
  induction evs generalizing st with
  | nil => exact ⟨h1, h2⟩
  | cons ev rest ih =>
    have hout' : ∀ s, RunEvent.outData s ∈ rest → s.length ≤ L :=
      fun s hs => hout s (List.mem_cons_of_mem _ hs)
    have herr' : ∀ s, RunEvent.errData s ∈ rest → s.length ≤ L :=
      fun s hs => herr s (List.mem_cons_of_mem _ hs)
    rw [List.foldl_cons]
    cases ev with
    | outData chunk =>
      have hc : chunk.length ≤ L := hout chunk (List.mem_cons_self _ _)
      simp only [runStep]
      split
      · exact ih _ hout' herr' (by simp [String.length_append]; omega) h2
      · exact ih _ hout' herr' h1 h2
    | errData chunk =>
      have hc : chunk.length ≤ L := herr chunk (List.mem_cons_self _ _)
      simp only [runStep]
      split
      · exact ih _ hout' herr' h1 (by simp [String.length_append]; omega)
      · exact ih _ hout' herr' h1 h2
    | timeoutFires =>
      simp only [runStep]
      split
      · exact ih _ hout' herr' h1 h2
      · exact ih _ hout' herr' h1 h2
    | closeEvt code =>
      simp only [runStep]
      split
      · exact ih _ hout' herr' h1 h2
      · exact ih _ hout' herr' h1 h2
    | errorEvt msg =>
      simp only [runStep]
      exact ih _ hout' herr' h1 h2

/-- C2: if the timeout timer fires while only stream data has been delivered
(the subprocess has not exited), the child is sent SIGKILL and the call
settles as rejected with the timeout error; whatever events follow —
including the child's eventual `close` — the settlement stays that
rejection, so a timed-out run never resolves with a (partial) outcome. -/
theorem runCommand_timeout_rejects (mb tms : Nat) (pre post : List RunEvent)
    (hpre : ∀ e ∈ pre, e.isData = true) :
    (runCommand mb tms (pre ++ RunEvent.timeoutFires :: post)).settled
      = some (.error (.timedOut tms)) ∧
    "SIGKILL" ∈ (runCommand mb tms (pre ++ RunEvent.timeoutFires :: post)).killSignals := by
  unfold runCommand
  rw [List.foldl_append]
  obtain ⟨o, e, hoe⟩ := foldl_data_events mb tms pre initRunState hpre
  rw [hoe, List.foldl_cons]
  have hstep : runStep mb tms { initRunState with stdout := o, stderr := e }
      RunEvent.timeoutFires
      = { killed := true, timerActive := false
          settled := some (.error (.timedOut tms)), killSignals := ["SIGKILL"]
          stdout := o, stderr := e } := by
    simp [runStep, initRunState, RunState.settle]
  rw [hstep]
  exact ⟨settled_persists _ _ _ _ _ rfl, killSignals_persist _ _ _ _ _ (by simp)⟩

/-- C3 counterexample: with `maxOutputMb = 1` (cap 1048576 bytes), a single
chunk one byte over the cap is appended whole — the buffer was still below
the cap when it arrived — so the resolved stdout is 1048577 characters long,
exceeding `maxOutputMb * 1024 * 1024`. -/
theorem runCommand_stdout_exceeds_cap :
    ∃ o, (runCommand 1 30000
        [RunEvent.outData bigChunk, RunEvent.closeEvt (some 0)]).settled
      = some (.ok o) ∧ o.stdout.length = 1048577 ∧ 1 * 1024 * 1024 < 1048577 := by
  refine ⟨⟨0, "" ++ bigChunk, ""⟩, ?_, ?_, by norm_num⟩
  · unfold runCommand
    simp only [List.foldl_cons, List.foldl_nil]
    have h1 : runStep 1 30000 initRunState (RunEvent.outData bigChunk)
        = { initRunState with stdout := "" ++ bigChunk } := by
      simp [runStep, initRunState]
    rw [h1]
    simp [runStep, initRunState, RunState.settle, exitCodeOrZero]
  · have hb : ("" ++ bigChunk) = bigChunk := rfl
    rw [hb]
    have hdata : bigChunk.data = List.replicate 1048577 'a' := rfl
    calc bigChunk.length = bigChunk.data.length := rfl
      _ = (List.replicate 1048577 'a').length := by rw [hdata]
      _ = 1048577 := List.length_replicate _ _

/-- C3 (amended): chunks arriving once a stream's buffer has reached
`maxOutputMb * 1024 * 1024` are silently dropped, so with every chunk at most
`L` long each resolved stream is at most `maxOutputMb * 1024 * 1024 + L`
long (the cap can be overshot by at most the final appended chunk), and
however much output arrives the run still resolves successfully. -/
theorem runCommand_output_capped (mb tms L : Nat) (evs : List RunEvent)
    (code : Option Int) (hdata : ∀ e ∈ evs, e.isData = true)
    (hout : ∀ s, RunEvent.outData s ∈ evs → s.length ≤ L)
    (herr : ∀ s, RunEvent.errData s ∈ evs → s.length ≤ L) :
    ∃ o, (runCommand mb tms (evs ++ [RunEvent.closeEvt code])).settled
        = some (.ok o) ∧
      o.stdout.length ≤ mb * 1024 * 1024 + L ∧
      o.stderr.length ≤ mb * 1024 * 1024 + L := by
  unfold runCommand
  rw [List.foldl_append]
  obtain ⟨o, e, hoe⟩ := foldl_data_events mb tms evs initRunState hdata
  have hbound := foldl_output_bound mb tms L evs initRunState hout herr
    (by simp [initRunState]) (by simp [initRunState])
  rw [hoe] at hbound ⊢
  refine ⟨⟨exitCodeOrZero code, o, e⟩, ?_, hbound.1, hbound.2⟩
  simp [runStep, initRunState, RunState.settle]

/-- C6 counterexample: a `close` event with a `null` exit code (the shape a
signal-killed child reports) resolves with exit code `0` — the zero default,
not a non-zero sentinel. -/
theorem runCommand_nullCode_resolves_zero :
    ∃ o, (runCommand 1 30000 [RunEvent.closeEvt none]).settled = some (.ok o)
      ∧ o.exitCode = 0 := ⟨⟨0, "", ""⟩, by rfl, rfl⟩

/-- C6 (amended): on a normal close after arbitrary stream data, the call
resolves and the outcome's exit code is the integer `code || 0` — `0`
whenever the close event reports no code (including a signal-killed child),
never null. -/
theorem runCommand_exitCode_total (mb tms : Nat) (evs : List RunEvent)
    (code : Option Int) (hdata : ∀ e ∈ evs, e.isData = true) :
    ∃ o, (runCommand mb tms (evs ++ [RunEvent.closeEvt code])).settled
        = some (.ok o) ∧
      o.exitCode = exitCodeOrZero code ∧ exitCodeOrZero none = 0 := by
  unfold runCommand
  rw [List.foldl_append]
  obtain ⟨o, e, hoe⟩ := foldl_data_events mb tms evs initRunState hdata
  rw [hoe]
  refine ⟨⟨exitCodeOrZero code, o, e⟩, ?_, rfl, rfl⟩
  simp [runStep, initRunState, RunState.settle]

/-- C7: with `validateOnly = true` both run tools return a success result
with exit code 0, elapsed 0 ms and their fixed confirmation message, and the
Runner is never invoked, whatever it would have produced. -/
theorem validateOnly_short_circuits
    (runner runnerInline : Except String ArtilleryResult) :
    RunTestFromFileTool.call true runner
      = (.ok "run_test_from_file"
          ⟨0, 0, "Configuration validated successfully (dry-run)", none⟩, false) ∧
    RunTestInlineTool.call true runnerInline
      = (.ok "run_test_inline"
          ⟨0, 0, "Inline configuration validated successfully (dry-run)", none⟩, false) :=
  ⟨rfl, rfl⟩

/-- C8: once the temp directory exists, whatever `writeFile` and the
underlying run do — success or any error — the final effect of
`runTestInline` before it returns is the deletion attempt of that call's
temp file. -/
theorem runTestInline_always_unlinks (workDir configText : String) (now : Nat)
    (writeOutcome : Except String Unit)
    (runOutcome : Except String ArtilleryResult) :
    ((runTestInline workDir configText now (.ok ()) writeOutcome
        runOutcome).2).getLast?
      = some (.unlinkTemp (tempFileName workDir now)) := by
  cases writeOutcome <;> cases runOutcome <;> rfl

/-- C10: a non-absolute `jsonPath` makes `parse_results` return the
structured `PARSE_ERROR` "Path must be absolute" without any file read;
only absolute paths reach the read. -/
theorem parseResultsTool_requires_absolute (jsonPath : String)
    (readParse : Except String JSValue) (nowIso : String)
    (h : isAbsolutePath jsonPath = false) :
    ParseResultsTool.call jsonPath readParse nowIso
      = (.error "parse_results" "PARSE_ERROR" "Path must be absolute", false) ∧
    (∀ rp : Except String JSValue,
      (ParseResultsTool.call jsonPath rp nowIso).2 = false) := by
  constructor
  · simp [ParseResultsTool.call, h]
  · intro rp
    simp [ParseResultsTool.call, h]

/-- Witness for the amended C1 theorem: an existing in-tree path is returned
resolved, and an escaping path is rejected, at concrete inputs. -/
theorem sanitizePath_spec_witness :
    sanitizePath (fun _ => true) "/work" "a.yml" none = .ok "/work/a.yml" ∧
    sanitizePath (fun _ => true) "/work" "../../etc/passwd" none
      = .error (.escape "../../etc/passwd") :=
  ⟨(sanitizePath_spec (fun _ => true) "/work" "a.yml" none).2.2 (by rfl) (by rfl),
   (sanitizePath_spec (fun _ => true) "/work" "../../etc/passwd" none).1 (by rfl)⟩

/-- Witness for the C2 theorem at a concrete trace: one data chunk, then the
timer fires, then the child closes. -/
theorem runCommand_timeout_rejects_witness :
    (runCommand 1 1000
        ([RunEvent.outData "x"] ++ RunEvent.timeoutFires :: [RunEvent.closeEvt (some 0)])).settled
      = some (.error (.timedOut 1000)) ∧
    "SIGKILL" ∈ (runCommand 1 1000
        ([RunEvent.outData "x"] ++ RunEvent.timeoutFires :: [RunEvent.closeEvt (some 0)])).killSignals :=
  runCommand_timeout_rejects 1 1000 [RunEvent.outData "x"]
    [RunEvent.closeEvt (some 0)] (by decide)

/-- Witness for the amended C3 theorem at a concrete trace with chunks of
length at most 2. -/
theorem runCommand_output_capped_witness :
    ∃ o, (runCommand 1 1000
        ([RunEvent.outData "hi"] ++ [RunEvent.closeEvt (some 0)])).settled
      = some (.ok o) ∧
      o.stdout.length ≤ 1 * 1024 * 1024 + 2 ∧
      o.stderr.length ≤ 1 * 1024 * 1024 + 2 :=
  runCommand_output_capped 1 1000 2 [RunEvent.outData "hi"] (some 0)
    (by decide)
    (by intro s hs; simp at hs; subst hs; decide)
    (by intro s hs; simp at hs)

/-- Witness for the amended C5 theorem: applied at a concrete object, with
the missing-errors clause instantiated at a counters section that carries
only `http.requests`. -/
theorem parseSummary_defaults_witness :
    (vobj [("a", vnum 1)] : JSValue) ≠ vnull ∧
    parseSummary (vobj [("a", vnum 1)])
      = .ok (specSummary (vobj [("a", vnum 1)])) ∧
    parseSummary (vobj []) =
      .ok ⟨vnum 0, vnum 0, vnum 0, vnum 0, vnum 0, vobj []⟩ ∧
    (∃ s, parseSummary (vobj [("aggregate",
          vobj [("counters", vobj [("http.requests", vnum 7)])])])
        = .ok s ∧ s.errors = vobj []) :=
  have h := parseSummary_defaults (vobj [("a", vnum 1)]) (by simp) (by simp)
  ⟨by simp, h.1, h.2.1, h.2.2 [("http.requests", vnum 7)] (by rfl)⟩

/-- Witness for the amended C6 theorem at a concrete trace closing with a
null exit code. -/
theorem runCommand_exitCode_total_witness :
    ∃ o, (runCommand 1 1000 ([] ++ [RunEvent.closeEvt none])).settled
        = some (.ok o) ∧
      o.exitCode = exitCodeOrZero none ∧ exitCodeOrZero none = 0 :=
  runCommand_exitCode_total 1 1000 [] none (by decide)

/-- Witness for the C9 theorem at the concrete string "30s" (and the
unmatched string "xyz"). -/
theorem parseDuration_spec_witness :
    parseDuration (String.mk (['3', '0'] ++ ['s']))
      = natOfDigits ['3', '0'] * unitMult 's' ∧
    parseDuration "xyz" = 1 :=
  ⟨(parseDuration_spec ['3', '0'] 's' (by decide) (by decide) (Or.inl rfl)).1,
   (parseDuration_spec ['3', '0'] 's' (by decide) (by decide)
      (Or.inl rfl)).2.2.1 "xyz" (by rfl)⟩

/-- Witness for the C10 theorem at the concrete relative path the
repository's own test uses. -/
theorem parseResultsTool_requires_absolute_witness :
    ParseResultsTool.call "relative/path.json" (.ok (vobj [])) "t"
      = (.error "parse_results" "PARSE_ERROR" "Path must be absolute", false) :=
  (parseResultsTool_requires_absolute "relative/path.json" (.ok (vobj []))
    "t" (by rfl)).1
